import Mathlib

/-!
# Shadow Daemon: the listener (src/server.cpp) and the audit contracts

A shallow embedding of `swd::server` (constructor, init, start, start_accept,
handle_accept, handle_stop) together with `swd::config::defined` / `get`.
The asio objects the server owns are modelled by the part of their state the
server drives, and every call the server makes on a collaborator is appended to
a call trace, in program order.
-/

namespace swd

/-! ## include/config.h -/

/-- The exceptions that can leave the modelled functions. -/
inductive exn where
  | system_error (what : String)
  | core_exception (what : String)
  | bad_any_cast
  | null_pointer
  | other (what : String)
  deriving DecidableEq, Repr

/-- The variables map `vm_` of `swd::config`: option values by key. -/
structure config where
  vm_ : List (String × String)
  deriving DecidableEq, Repr

/-- Member `vm_.count(key)` of a map: 1 when the key is stored, else 0. -/
def config.count (c : config) (key : String) : Nat :=
  match c.vm_.lookup key with
  | some _ => 1
  | none => 0

/-- Member `bool defined(std::string key) { return (vm_.count(key) > 0); }`. -/
def config.defined (c : config) (key : String) : Bool :=
  decide (c.count key > 0)

/-- Member `get<std::string>(key)`, that is `vm_[key].as<T>()`: an absent key
gives an empty value whose `as` raises `bad_any_cast`. -/
def config.get (c : config) (key : String) : Except exn String :=
  match c.vm_.lookup key with
  | some v => .ok v
  | none => .error .bad_any_cast

/-! ## The collaborators of the server -/

/-- Signals the constructor may register. -/
inductive signal where
  | SIGINT
  | SIGTERM
  | SIGQUIT
  deriving DecidableEq, Repr

/-- Member functions of the server that are bound as completion handlers. -/
inductive handler where
  | handle_stop
  | handle_accept
  deriving DecidableEq, Repr

/-- Which of the two sockets of a connection is handed to the acceptor. -/
inductive socket_kind where
  | socket
  | ssl_socket
  deriving DecidableEq, Repr

/-- A `boost::system::error_code`; it is unset exactly when its value is 0. -/
structure error_code where
  value : Int
  deriving DecidableEq, Repr

/-- The test `!e` of an error code. -/
def error_code.not (e : error_code) : Bool := e.value == 0

/-- Severity passed to the log; `server.cpp` uses `swd::uncritical_error` only. -/
inductive log_level where
  | uncritical_error
  deriving DecidableEq, Repr

/-- A resolved tcp endpoint. -/
structure endpoint where
  address : String
  port : String
  deriving DecidableEq, Repr

/-- What a worker thread is bound to run. -/
inductive thread_fn where
  | io_service_run
  deriving DecidableEq, Repr

/-- A `swd::connection` object: its identity and the ssl flag it was built with. -/
structure connection where
  id : Nat
  ssl : Bool
  deriving DecidableEq, Repr

/-- The calls the server makes, in program order. -/
inductive event where
  | signals_add (sig : signal)
  | signals_async_wait (h : handler)
  | context_set_options
  | context_use_certificate_chain_file (file : String)
  | context_use_private_key_file (file : String)
  | context_use_tmp_dh_file (file : String)
  | resolver_resolve (address port : String)
  | acceptor_open
  | acceptor_set_option_reuse_address
  | acceptor_bind (ep : endpoint)
  | acceptor_listen
  | start_accept
  | new_connection (id : Nat) (ssl : Bool)
  | acceptor_async_accept (sock : socket_kind) (conn : Nat) (h : handler)
  | connection_start (id : Nat)
  | log_send (level : log_level) (message : String)
  | io_service_stop
  | thread_create (i : Nat) (f : thread_fn)
  | thread_join (i : Nat)
  deriving DecidableEq, Repr

/-- State of `boost::asio::ssl::context context_` as far as init drives it. -/
structure ssl_context where
  options_set : Bool
  certificate_chain_file : Option String
  private_key_file : Option String
  tmp_dh_file : Option String
  deriving DecidableEq, Repr

/-- An armed asynchronous accept: the socket it fills and its handler. -/
structure pending_accept where
  sock : socket_kind
  conn : Nat
  h : handler
  deriving DecidableEq, Repr

/-- State of `boost::asio::ip::tcp::acceptor acceptor_`. -/
structure acceptor where
  is_open : Bool
  reuse_address : Bool
  bound : Option endpoint
  listening : Bool
  pending : Option pending_accept
  deriving DecidableEq, Repr

/-- The server object: its data members (`io_service_`, `signals_`,
`acceptor_`, `context_`, `new_connection_`), the counter that names the next
connection object to be allocated, and the trace of calls made so far. -/
structure server where
  io_service_stopped : Bool
  signals_ : List signal
  signals_handler : Option handler
  acceptor_ : acceptor
  context_ : ssl_context
  new_connection_ : Option connection
  next_id : Nat
  trace : List event
  deriving DecidableEq, Repr

/-- How the asio calls of init behave: `some what` (or `.error what`) means the
call throws `boost::system::system_error` whose `what()` is `what`. -/
structure asio_env where
  set_options : Option String
  use_certificate_chain_file : String → Option String
  use_private_key_file : String → Option String
  use_tmp_dh_file : String → Option String
  resolve : String → String → Except String endpoint
  acceptor_open : endpoint → Option String
  acceptor_set_option : Option String
  acceptor_bind : endpoint → Option String
  acceptor_listen : Option String

/-- How `new_connection_->start()` ends. -/
inductive start_result where
  | ok
  | throws_system_error (what : String)
  | throws_other (what : String)
  deriving DecidableEq, Repr

/-- A function either returns or raises; both leave a server state behind. -/
inductive outcome where
  | returned (s : server)
  | raised (e : exn) (s : server)
  deriving DecidableEq, Repr

/-- The state a call leaves behind. -/
def outcome.state : outcome → server
  | .returned s => s
  | .raised _ s => s

/-- Sequencing: the next statement runs only if the previous one returned. -/
def outcome.andThen (o : outcome) (f : server → outcome) : outcome :=
  match o with
  | .returned s => f s
  | .raised e s => .raised e s

/-- Record a call in the trace. -/
def server.record (s : server) (ev : event) : server :=
  { s with trace := s.trace ++ [ev] }

/-- One throwing asio call: it is recorded, then it takes effect and returns,
or raises `system_error`. -/
def asio_call (ev : event) (result : Option String) (effect : server → server)
    (s : server) : outcome :=
  match result with
  | none => .returned (effect (s.record ev))
  | some what => .raised (.system_error what) (s.record ev)

/-- Evaluate `swd::config::i()->get<std::string>(key)` and go on with the value. -/
def with_get (cfg : config) (key : String) (s : server) (k : String → outcome) : outcome :=
  match cfg.get key with
  | .ok v => k v
  | .error e => .raised e s

/-! ## src/server.cpp -/

/-- The state of the members before the constructor body runs. -/
def server.members : server :=
  { io_service_stopped := false
    signals_ := []
    signals_handler := none
    acceptor_ := { is_open := false, reuse_address := false, bound := none,
                   listening := false, pending := none }
    context_ := { options_set := false, certificate_chain_file := none,
                  private_key_file := none, tmp_dh_file := none }
    new_connection_ := none
    next_id := 0
    trace := [] }

/-- Member `signals_.add(sig)`. -/
def server.signals_add (sig : signal) (s : server) : server :=
  { s with signals_ := s.signals_ ++ [sig], trace := s.trace ++ [event.signals_add sig] }

/-- Member `signals_.async_wait(bind(h, this))`. -/
def server.signals_async_wait (h : handler) (s : server) : server :=
  { s with signals_handler := some h, trace := s.trace ++ [event.signals_async_wait h] }

/-- Constructor `swd::server::server()`; `sigquit_defined` is `defined(SIGQUIT)`. -/
def server.ctor (sigquit_defined : Bool) : server :=
  let s := server.members
  let s := s.signals_add .SIGINT
  let s := s.signals_add .SIGTERM
  let s := if sigquit_defined then s.signals_add .SIGQUIT else s
  s.signals_async_wait .handle_stop

/-- Function `swd::server::start_accept()`. -/
def server.start_accept (cfg : config) (s : server) : server :=
  let s := s.record event.start_accept
  let ssl := cfg.defined "ssl"
  let c : connection := { id := s.next_id, ssl := ssl }
  let s := { s with new_connection_ := some c, next_id := s.next_id + 1,
                    trace := s.trace ++ [event.new_connection c.id ssl] }
  let sock := if ssl then socket_kind.ssl_socket else socket_kind.socket
  { s with acceptor_ := { s.acceptor_ with
                          pending := some { sock := sock, conn := c.id, h := .handle_accept } },
           trace := s.trace ++ [event.acceptor_async_accept sock c.id .handle_accept] }

/-- The body of `if (swd::config::i()->defined("ssl"))` in init: the four calls
on `context_`. -/
def server.init_context (cfg : config) (env : asio_env) (s : server) : outcome :=
  (asio_call event.context_set_options env.set_options
    (fun s => { s with context_ := { s.context_ with options_set := true } }) s).andThen fun s =>
  with_get cfg "ssl-cert" s fun cert =>
  (asio_call (event.context_use_certificate_chain_file cert) (env.use_certificate_chain_file cert)
    (fun s => { s with context_ := { s.context_ with certificate_chain_file := some cert } })
    s).andThen fun s =>
  with_get cfg "ssl-key" s fun key =>
  (asio_call (event.context_use_private_key_file key) (env.use_private_key_file key)
    (fun s => { s with context_ := { s.context_ with private_key_file := some key } })
    s).andThen fun s =>
  with_get cfg "ssl-dh" s fun dh =>
  asio_call (event.context_use_tmp_dh_file dh) (env.use_tmp_dh_file dh)
    (fun s => { s with context_ := { s.context_ with tmp_dh_file := some dh } }) s

/-- The calls `acceptor_.open`, `set_option`, `bind` and `listen` of init on the
resolved endpoint. -/
def server.init_listen (env : asio_env) (ep : endpoint) (s : server) : outcome :=
  (asio_call event.acceptor_open (env.acceptor_open ep)
    (fun s => { s with acceptor_ := { s.acceptor_ with is_open := true } }) s).andThen fun s =>
  (asio_call event.acceptor_set_option_reuse_address env.acceptor_set_option
    (fun s => { s with acceptor_ := { s.acceptor_ with reuse_address := true } })
    s).andThen fun s =>
  (asio_call (event.acceptor_bind ep) (env.acceptor_bind ep)
    (fun s => { s with acceptor_ := { s.acceptor_ with bound := some ep } }) s).andThen fun s =>
  asio_call event.acceptor_listen env.acceptor_listen
    (fun s => { s with acceptor_ := { s.acceptor_ with listening := true } }) s

/-- The second half of the try block of init: resolve the configured address
and port, then open, set the option, bind and listen. -/
def server.init_acceptor (cfg : config) (env : asio_env) (s : server) : outcome :=
  with_get cfg "address" s fun address =>
  with_get cfg "port" s fun port =>
  match env.resolve address port with
  | .error what =>
    .raised (.system_error what) (s.record (event.resolver_resolve address port))
  | .ok ep => server.init_listen env ep (s.record (event.resolver_resolve address port))

/-- The body of the try block of `swd::server::init()`. -/
def server.init_try (cfg : config) (env : asio_env) (s : server) : outcome :=
  (if cfg.defined "ssl" then server.init_context cfg env s else .returned s).andThen
    (server.init_acceptor cfg env)

/-- Function `swd::server::init()`: a `system_error` raised in the try block is
rethrown as `core_exception(e.what())`; otherwise start_accept is called. -/
def server.init (cfg : config) (env : asio_env) (s : server) : outcome :=
  match server.init_try cfg env s with
  | .raised (.system_error what) s1 => .raised (.core_exception what) s1
  | .raised e s1 => .raised e s1
  | .returned s1 => .returned (server.start_accept cfg s1)

/-- Function `swd::server::start(thread_pool_size)`: the first loop creates one
thread per index, each bound to `io_service::run` on `io_service_`, and pushes
it on `threads`; the second loop joins `threads[i]` for every index. -/
def server.start (thread_pool_size : Nat) (s : server) : server :=
  let created := (List.range thread_pool_size).foldl
    (fun (st : server × List Nat) i =>
      (st.1.record (event.thread_create i .io_service_run), st.2 ++ [i]))
    (s, [])
  (List.range created.2.length).foldl
    (fun st i => match created.2.get? i with
      | some t => st.record (event.thread_join t)
      | none => st)
    created.1

/-- The call `new_connection_->start()`; a null `new_connection_` fails the
assertion of the shared pointer. -/
def server.new_connection_start (r : start_result) (s : server) : outcome :=
  match s.new_connection_ with
  | none => .raised .null_pointer s
  | some c =>
    match r with
    | .ok => .returned (s.record (event.connection_start c.id))
    | .throws_system_error what => .raised (.system_error what) (s.record (event.connection_start c.id))
    | .throws_other what => .raised (.other what) (s.record (event.connection_start c.id))

/-- The call `swd::log::i()->send(level, message)`. -/
def server.log_send (level : log_level) (message : String) (s : server) : server :=
  s.record (event.log_send level message)

/-- Function `swd::server::handle_accept(e)`; `r` is how starting the pending
connection would end. -/
def server.handle_accept (cfg : config) (e : error_code) (r : start_result)
    (s : server) : outcome :=
  let body : outcome := if e.not then s.new_connection_start r else outcome.returned s
  let tried : outcome :=
    match body with
    | outcome.raised (exn.system_error what) s1 =>
      outcome.returned (s1.log_send log_level.uncritical_error what)
    | o => o
  tried.andThen fun s => outcome.returned (server.start_accept cfg s)

/-- Function `swd::server::handle_stop()`: `io_service_.stop()`. -/
def server.handle_stop (s : server) : server :=
  { s with io_service_stopped := true, trace := s.trace ++ [event.io_service_stop] }

/-- The event loop delivering a sequence of accept completions, one after the
other, to handle_accept; an exception leaving a handler ends the run. -/
def server.run (cfg : config) : List (error_code × start_result) → server → outcome
  | [], s => .returned s
  | (e, r) :: rest, s => (server.handle_accept cfg e r s).andThen (server.run cfg rest)

/-! ## Observations on traces -/

/-- Number of calls of start_accept in a trace. -/
def start_accept_calls (t : List event) : Nat := t.count event.start_accept

/-- The messages sent to the log in a trace. -/
def log_messages : List event → List (log_level × String)
  | [] => []
  | event.log_send l m :: t => (l, m) :: log_messages t
  | _ :: t => log_messages t

/-- The connection objects started in a trace. -/
def started : List event → List Nat
  | [] => []
  | event.connection_start id :: t => id :: started t
  | _ :: t => started t

/-- The connection objects created in a trace. -/
def created : List event → List Nat
  | [] => []
  | event.new_connection id _ :: t => id :: created t
  | _ :: t => created t


/-- The sockets on which an accept was armed in a trace. -/
def armed_sockets : List event → List socket_kind
  | [] => []
  | .acceptor_async_accept sock _ _ :: t => sock :: armed_sockets t
  | _ :: t => armed_sockets t

/-- A stretch of trace without a call of start_accept, without a connection
being created or started and without an accept being armed. -/
def setup_only (t : List event) : Prop :=
  start_accept_calls t = 0 ∧ started t = [] ∧ created t = [] ∧ armed_sockets t = []

/-- From `s` to `s1` only calls other than start_accept were made, and the
pending accept, the pending connection and the allocation counter are as before. -/
def quiet (s s1 : server) : Prop :=
  (∃ mid, s1.trace = s.trace ++ mid ∧ setup_only mid) ∧
  s1.acceptor_.pending = s.acceptor_.pending ∧
  s1.new_connection_ = s.new_connection_ ∧ s1.next_id = s.next_id

/-- An outcome reached quietly from `s` which, when it is an exception, is a
`system_error` or a `bad_any_cast`. -/
def quiet_outcome (s : server) (o : outcome) : Prop :=
  quiet s o.state ∧
  ∀ e s1, o = .raised e s1 → e = .bad_any_cast ∨ ∃ what, e = .system_error what

/-- When the outcome is a return, the last call made since `s` is
`acceptor_.listen()`, with no call of start_accept before it. -/
def listens (s : server) (o : outcome) : Prop :=
  ∀ s1, o = .returned s1 →
    ∃ mid, s1.trace = s.trace ++ mid ++ [event.acceptor_listen] ∧ start_accept_calls mid = 0

/-- The state of a server on which an accept is armed for the pending
connection `c`: `c` is the newest connection object, it has not been started,
and no connection object was created or started twice. -/
def armed_inv (s : server) (c : connection) : Prop :=
  s.new_connection_ = some c ∧ s.next_id = c.id + 1 ∧
  (∀ id ∈ started s.trace, id < c.id) ∧ (started s.trace).Nodup ∧
  (∀ id ∈ created s.trace, id ≤ c.id) ∧ (created s.trace).Nodup ∧ c.id ∈ created s.trace

/-! ## The audit trail (include/profile.h, include/database.h)

The sources hold the declarations of `swd::profile` and `swd::database` only;
the analyzer that computes the verdicts and makes the calls, and the bodies of
the methods, are not among them. They are modelled from the specification. -/

/-- The data members of `swd::profile`. -/
structure profile where
  server_ip_ : String
  id_ : Int
  learning_ : Bool
  key_ : String
  threshold_ : Int

/-- Modelled from the spec: the body of `profile::get_threshold` is missing; by
§3 and the header ("@return The blacklist threshold") it returns the threshold
the profile was constructed with. -/
def profile.get_threshold (p : profile) : Int := p.threshold_

/-- Modelled from the spec: the body of `profile::get_id` is missing; it returns
the id the profile was constructed with. -/
def profile.get_id (p : profile) : Int := p.id_

/-- Modelled from the spec: a blacklist filter of §3, an opaque matcher on the
raw value of a parameter with an impact weight. -/
structure blacklist_filter where
  id : Int
  impact : Int
  is_match : String → Bool

/-- Modelled from the spec: a whitelist rule of §3, scoped to a profile and a
caller, with an opaque pattern on the path of a parameter. -/
structure whitelist_rule where
  id : Int
  profile : Int
  caller : String
  covers : String → Bool

/-- Modelled from the spec: a request parameter, a path and a value (§4.1). -/
structure parameter where
  path : String
  value : String
  deriving DecidableEq, Repr

/-- Conversion of a `bool` to the `int` flag the database methods take. -/
def flag (b : Bool) : Int := if b then 1 else 0

/-- A call of one of the four write methods of `swd::database`, with the value
it returned for the two that return the id of the new row. -/
inductive db_call where
  | save_request (profile : Int) (caller : String) (learning : Int) (client_ip : String)
      (ret : Int)
  | save_parameter (request : Int) (path value : String) (total_rules : Int)
      (critical_impact : Int) (threat : Int) (ret : Int)
  | add_blacklist_parameter_connector (filter : Int) (parameter : Int)
  | add_whitelist_parameter_connector (rule : Int) (parameter : Int)
  deriving DecidableEq, Repr

/-- Modelled from the spec: the backing store behind `swd::database`, whose
method bodies are missing: the calls written so far and the identities the next
request row and the next parameter row will be given (§4.4: each write returns
"the newly assigned identity of the inserted row"). -/
structure database where
  next_request : Int
  next_parameter : Int
  calls : List db_call
  deriving DecidableEq, Repr

/-- Modelled from the spec: `save_request(profile, caller, learning, client_ip)`
inserts the row and returns its identity (§4.4). -/
def database.save_request (db : database) (profile : Int) (caller : String) (learning : Int)
    (client_ip : String) : Int × database :=
  (db.next_request,
   { db with next_request := db.next_request + 1,
             calls := db.calls ++
               [db_call.save_request profile caller learning client_ip db.next_request] })

/-- Modelled from the spec: `save_parameter(request, path, value, total_rules,
critical_impact, threat)` inserts the row and returns its identity (§4.4). -/
def database.save_parameter (db : database) (request : Int) (path value : String)
    (total_rules critical_impact threat : Int) : Int × database :=
  (db.next_parameter,
   { db with next_parameter := db.next_parameter + 1,
             calls := db.calls ++
               [db_call.save_parameter request path value total_rules critical_impact threat
                 db.next_parameter] })

/-- Modelled from the spec: `add_blacklist_parameter_connector(filter, parameter)`
inserts the connector row (§4.4). -/
def database.add_blacklist_parameter_connector (db : database) (filter parameter : Int) :
    database :=
  { db with calls := db.calls ++ [db_call.add_blacklist_parameter_connector filter parameter] }

/-- Modelled from the spec: `add_whitelist_parameter_connector(rule, parameter)`
inserts the connector row (§4.4). -/
def database.add_whitelist_parameter_connector (db : database) (rule parameter : Int) :
    database :=
  { db with calls := db.calls ++ [db_call.add_whitelist_parameter_connector rule parameter] }

/-- Modelled from the spec: `get_whitelist_rules(profile, caller)` returns the
rules scoped to that profile and caller (§4.4). -/
def get_whitelist_rules (all : List whitelist_rule) (profile : Int) (caller : String) :
    List whitelist_rule :=
  all.filter fun r => r.profile == profile && r.caller == caller

/-- Modelled from the spec: each distinct filter counts once (§4.3 step 1); a
later filter with the id of an earlier one is dropped. -/
def distinct_filters : List blacklist_filter → List blacklist_filter
  | [] => []
  | f :: t => f :: (distinct_filters t).filter fun g => g.id != f.id

/-- Modelled from the spec: the filters that match the value of the parameter
(§4.3 step 1). -/
def matched_filters (filters : List blacklist_filter) (P : parameter) : List blacklist_filter :=
  distinct_filters (filters.filter fun f => f.is_match P.value)

/-- Modelled from the spec: the aggregate impact, the sum of the weights of the
matched filters (§4.3 step 1). -/
def aggregate_impact (filters : List blacklist_filter) (P : parameter) : Int :=
  ((matched_filters filters P).map fun f => f.impact).sum

/-- Modelled from the spec: the rules that cover the parameter, those whose
pattern matches its path (§4.3 step 2). -/
def covering_rules (rules : List whitelist_rule) (P : parameter) : List whitelist_rule :=
  rules.filter fun r => r.covers P.path

/-- Modelled from the spec: `whitelisted` holds when at least one covering rule
exists (§4.3 step 3). -/
def whitelisted (rules : List whitelist_rule) (P : parameter) : Bool :=
  !(covering_rules rules P).isEmpty

/-- Modelled from the spec: `critical_impact` = (aggregate impact ≥
profile.threshold), computed independently of whitelisting (§4.3 step 4). -/
def critical_impact (p : profile) (filters : List blacklist_filter) (P : parameter) : Bool :=
  decide (aggregate_impact filters P ≥ p.get_threshold)

/-- Modelled from the spec: `threat` = critical_impact AND NOT whitelisted
(§4.3 step 4). -/
def threat (p : profile) (filters : List blacklist_filter) (rules : List whitelist_rule)
    (P : parameter) : Bool :=
  critical_impact p filters P && !whitelisted rules P

/-- Modelled from the spec: the audit rows of one parameter (§4.3 steps 2, 3
and 5, §4.4): the parameter row, then a blacklist connector for each filter
that contributed to the impact, then a whitelist connector for each covering
rule, each naming the identity save_parameter returned. -/
def save_parameter_rows (db : database) (request : Int) (p : profile)
    (filters : List blacklist_filter) (rules : List whitelist_rule) (P : parameter) :
    database :=
  let saved := db.save_parameter request P.path P.value
    (covering_rules rules P).length (flag (critical_impact p filters P))
    (flag (threat p filters rules P))
  let db := (matched_filters filters P).foldl
    (fun db f => db.add_blacklist_parameter_connector f.id saved.1) saved.2
  (covering_rules rules P).foldl
    (fun db r => db.add_whitelist_parameter_connector r.id saved.1) db

/-- Modelled from the spec: the audit trail of one request (§4.3, §4.4): the
request row first, then the rows of each parameter in order, each parameter
naming the identity save_request returned. -/
def save_audit_trail (db : database) (p : profile) (filters : List blacklist_filter)
    (all_rules : List whitelist_rule) (caller client_ip : String)
    (parameters : List parameter) : database :=
  let saved := db.save_request p.get_id caller (flag p.learning_) client_ip
  let rules := get_whitelist_rules all_rules p.get_id caller
  parameters.foldl (fun db P => save_parameter_rows db saved.1 p filters rules P) saved.2

/-- The calls written since the trail `before`. -/
def written (before : List db_call) (db : database) : List db_call :=
  db.calls.drop before.length

/-- The request identities returned by the calls of a trail. -/
def returned_requests : List db_call → List Int
  | [] => []
  | .save_request _ _ _ _ ret :: t => ret :: returned_requests t
  | _ :: t => returned_requests t

/-- The parameter identities returned by the calls of a trail. -/
def returned_parameters : List db_call → List Int
  | [] => []
  | .save_parameter _ _ _ _ _ _ ret :: t => ret :: returned_parameters t
  | _ :: t => returned_parameters t

/-- The identities a call names were returned before: the request of a
parameter row is among `requests`, the parameter of a connector row is among
`parameters`. -/
def names_known (requests parameters : List Int) : db_call → Prop
  | .save_request _ _ _ _ _ => True
  | .save_parameter request _ _ _ _ _ _ => request ∈ requests
  | .add_blacklist_parameter_connector _ parameter => parameter ∈ parameters
  | .add_whitelist_parameter_connector _ parameter => parameter ∈ parameters

/-- Every call of the trail names only identities returned by the calls before
it, or contained in `requests` and `parameters` to begin with. -/
def ordered_from (requests parameters : List Int) : List db_call → Prop
  | [] => True
  | c :: t => names_known requests parameters c ∧
      ordered_from (requests ++ returned_requests [c]) (parameters ++ returned_parameters [c]) t

/-- The whitelist connectors of a trail, as pairs of rule and parameter. -/
def whitelist_connectors : List db_call → List (Int × Int)
  | [] => []
  | .add_whitelist_parameter_connector rule parameter :: t =>
    (rule, parameter) :: whitelist_connectors t
  | _ :: t => whitelist_connectors t

/-- The critical_impact flags of the parameter rows of a trail. -/
def critical_flags : List db_call → List Int
  | [] => []
  | .save_parameter _ _ _ _ critical _ _ :: t => critical :: critical_flags t
  | _ :: t => critical_flags t

/-- The threat flags of the parameter rows of a trail. -/
def threat_flags : List db_call → List Int
  | [] => []
  | .save_parameter _ _ _ _ _ th _ :: t => th :: threat_flags t
  | _ :: t => threat_flags t

/-- The rows save_parameter_rows writes for one parameter, as a list, when the
parameter row is given the identity `pid`. -/
def parameter_block (request pid : Int) (p : profile) (filters : List blacklist_filter)
    (rules : List whitelist_rule) (P : parameter) : List db_call :=
  db_call.save_parameter request P.path P.value (covering_rules rules P).length
      (flag (critical_impact p filters P)) (flag (threat p filters rules P)) pid ::
    ((matched_filters filters P).map fun f => db_call.add_blacklist_parameter_connector f.id pid)
    ++ ((covering_rules rules P).map fun r => db_call.add_whitelist_parameter_connector r.id pid)

/-- The rows written for a list of parameters, the first of which is given the
identity `pid`. -/
def parameter_blocks (request : Int) (p : profile) (filters : List blacklist_filter)
    (rules : List whitelist_rule) : Int → List parameter → List db_call
  | _, [] => []
  | pid, P :: t => parameter_block request pid p filters rules P
      ++ parameter_blocks request p filters rules (pid + 1) t

/-! ## Concrete inputs -/

/-- An empty store. -/
def empty_db : database := { next_request := 1, next_parameter := 1, calls := [] }

/-- The profile of the scenario of §8. -/
def profile_1 : profile :=
  { server_ip_ := "127.0.0.1", id_ := 1, learning_ := false, key_ := "k", threshold_ := 5 }

/-- The blacklist filter of the scenario of §8. -/
def filter_sqli : blacklist_filter :=
  { id := 7, impact := 6, is_match := fun v => v == "1 OR 1=1" }

/-- The whitelist rule of the scenario of §8. -/
def rule_id : whitelist_rule :=
  { id := 3, profile := 1, caller := "login.php", covers := fun path => path == "id" }

/-- The parameter of the scenario of §8. -/
def param_id : parameter := { path := "id", value := "1 OR 1=1" }

/-- An environment in which every asio call of init succeeds. -/
def env_ok : asio_env :=
  { set_options := none
    use_certificate_chain_file := fun _ => none
    use_private_key_file := fun _ => none
    use_tmp_dh_file := fun _ => none
    resolve := fun a p => .ok { address := a, port := p }
    acceptor_open := fun _ => none
    acceptor_set_option := none
    acceptor_bind := fun _ => none
    acceptor_listen := none }

/-- An environment in which bind fails (address already in use). -/
def env_bind_fails : asio_env :=
  { env_ok with acceptor_bind := fun _ => some "bind: Address already in use" }

/-- A configuration without ssl. -/
def cfg_plain : config := { vm_ := [("address", "127.0.0.1"), ("port", "9115")] }

/-- A configuration with ssl. -/
def cfg_ssl : config :=
  { vm_ := [("address", "127.0.0.1"), ("port", "9115"), ("ssl", ""),
            ("ssl-cert", "cert.pem"), ("ssl-key", "key.pem"), ("ssl-dh", "dh.pem")] }

/-- A server on which an accept has been armed once. -/
def armed : server := server.start_accept cfg_plain (server.ctor true)

/-! ## Basic facts -/

theorem start_accept_trace (cfg : config) (s : server) :
    (server.start_accept cfg s).trace = s.trace ++
      [event.start_accept, event.new_connection s.next_id (cfg.defined "ssl"),
       event.acceptor_async_accept
         (if cfg.defined "ssl" then socket_kind.ssl_socket else socket_kind.socket)
         s.next_id handler.handle_accept] := by
  simp [server.start_accept, server.record]

theorem start_accept_new_connection (cfg : config) (s : server) :
    (server.start_accept cfg s).new_connection_
      = some { id := s.next_id, ssl := cfg.defined "ssl" } := by
  simp [server.start_accept, server.record]

theorem start_accept_next_id (cfg : config) (s : server) :
    (server.start_accept cfg s).next_id = s.next_id + 1 := by
  simp [server.start_accept, server.record]

theorem handle_accept_eq (cfg : config) (e : error_code) (r : start_result) (s : server)
    (c : connection) (h : s.new_connection_ = some c) :
    server.handle_accept cfg e r s =
      if e.not then
        match r with
        | .ok => .returned (server.start_accept cfg (s.record (event.connection_start c.id)))
        | .throws_system_error what =>
          .returned (server.start_accept cfg
            ((s.record (event.connection_start c.id)).log_send .uncritical_error what))
        | .throws_other what => .raised (.other what) (s.record (event.connection_start c.id))
      else .returned (server.start_accept cfg s) := by
  cases he : e.not <;> cases r <;>
    simp [server.handle_accept, server.new_connection_start, h, he, outcome.andThen]

theorem start_accept_calls_append (a b : List event) :
    start_accept_calls (a ++ b) = start_accept_calls a + start_accept_calls b := by
  simp [start_accept_calls]

theorem log_messages_append (a b : List event) :
    log_messages (a ++ b) = log_messages a ++ log_messages b := by
  induction a with
  | nil => rfl
  | cons x t ih => cases x <;> simp [log_messages, ih]

theorem started_append (a b : List event) : started (a ++ b) = started a ++ started b := by
  induction a with
  | nil => rfl
  | cons x t ih => cases x <;> simp [started, ih]

theorem created_append (a b : List event) : created (a ++ b) = created a ++ created b := by
  induction a with
  | nil => rfl
  | cons x t ih => cases x <;> simp [created, ih]

theorem armed_sockets_append (a b : List event) :
    armed_sockets (a ++ b) = armed_sockets a ++ armed_sockets b := by
  induction a with
  | nil => rfl
  | cons x t ih => cases x <;> simp [armed_sockets, ih]

theorem start_accept_sockets (cfg : config) (s : server) :
    armed_sockets (server.start_accept cfg s).trace = armed_sockets s.trace ++
      [if cfg.defined "ssl" then socket_kind.ssl_socket else socket_kind.socket] := by
  rw [start_accept_trace, armed_sockets_append]; simp [armed_sockets]

theorem handle_accept_sockets (cfg : config) (e : error_code) (r : start_result) (s : server) :
    ∀ k ∈ armed_sockets (server.handle_accept cfg e r s).state.trace,
      k ∈ armed_sockets s.trace ∨
      k = if cfg.defined "ssl" then socket_kind.ssl_socket else socket_kind.socket := by
  intro k hk
  have hrec : ∀ id, armed_sockets (s.record (event.connection_start id)).trace
      = armed_sockets s.trace := fun id => by
    simp [server.record, armed_sockets_append, armed_sockets]
  have hlog : ∀ id what, armed_sockets ((s.record (event.connection_start id)).log_send
      .uncritical_error what).trace = armed_sockets s.trace := fun id what => by
    simp [server.record, server.log_send, armed_sockets_append, armed_sockets]
  have hsa : ∀ t : server, armed_sockets t.trace = armed_sockets s.trace →
      k ∈ armed_sockets (server.start_accept cfg t).trace →
      k ∈ armed_sockets s.trace ∨
      k = if cfg.defined "ssl" then socket_kind.ssl_socket else socket_kind.socket := by
    intro t ht hmem
    rw [start_accept_sockets, ht] at hmem
    rcases List.mem_append.mp hmem with h1 | h1
    · exact Or.inl h1
    · exact Or.inr (List.mem_singleton.mp h1)
  cases he : e.not
  · have : server.handle_accept cfg e r s = .returned (server.start_accept cfg s) := by
      simp [server.handle_accept, he, outcome.andThen]
    rw [this] at hk
    exact hsa s rfl hk
  · cases hn : s.new_connection_ with
    | none =>
      have : server.handle_accept cfg e r s = .raised .null_pointer s := by
        simp [server.handle_accept, server.new_connection_start, he, hn, outcome.andThen]
      rw [this] at hk
      exact Or.inl hk
    | some c =>
      rw [handle_accept_eq cfg e r s c hn, he] at hk
      cases r with
      | ok => exact hsa _ (hrec c.id) hk
      | throws_system_error what => exact hsa _ (hlog c.id what) hk
      | throws_other what =>
        simp only [if_true, outcome.state] at hk
        rw [hrec] at hk
        exact Or.inl hk

theorem run_sockets (cfg : config) (cs : List (error_code × start_result)) (s : server) :
    ∀ k ∈ armed_sockets (server.run cfg cs s).state.trace,
      k ∈ armed_sockets s.trace ∨
      k = if cfg.defined "ssl" then socket_kind.ssl_socket else socket_kind.socket := by
  induction cs generalizing s with
  | nil => intro k hk; exact Or.inl hk
  | cons x t ih =>
    obtain ⟨e, r⟩ := x
    intro k hk
    have hstep := handle_accept_sockets cfg e r s
    simp only [server.run] at hk
    cases hh : server.handle_accept cfg e r s with
    | raised e1 s1 =>
      rw [hh] at hk hstep
      exact hstep k hk
    | returned s1 =>
      rw [hh] at hk hstep
      rcases ih s1 k hk with h1 | h1
      · exact hstep k h1
      · exact Or.inr h1

/-! ## The accept handler -/

/-- C1: whatever the error code of a completed accept, and whether starting the
pending connection returns or throws `system_error`, handle_accept returns
normally; what it returns is the state left by one call of start_accept, made
after the try block, in which start_accept was not called. -/
theorem handle_accept_returns_and_rearms (cfg : config) (e : error_code) (r : start_result)
    (s : server) (hp : s.new_connection_ ≠ none) (hr : ∀ what, r ≠ .throws_other what) :
    ∃ s1 mid, server.handle_accept cfg e r s = .returned (server.start_accept cfg s1) ∧
      s1.trace = s.trace ++ mid ∧ start_accept_calls mid = 0 ∧
      start_accept_calls ((server.start_accept cfg s1).trace.drop s.trace.length) = 1 := by
  obtain ⟨c, hc⟩ := Option.ne_none_iff_exists'.mp hp
  rw [handle_accept_eq cfg e r s c hc]
  cases he : e.not
  · refine ⟨s, [], by simp, by simp, by decide, ?_⟩
    simp [start_accept_trace, start_accept_calls]
  · cases r with
    | ok =>
      refine ⟨s.record (event.connection_start c.id), [event.connection_start c.id],
        by simp, by simp [server.record], by simp [start_accept_calls], ?_⟩
      simp [start_accept_trace, server.record, start_accept_calls]
    | throws_system_error what =>
      refine ⟨(s.record (event.connection_start c.id)).log_send .uncritical_error what,
        [event.connection_start c.id, event.log_send .uncritical_error what],
        by simp, by simp [server.record, server.log_send], by simp [start_accept_calls], ?_⟩
      simp [start_accept_trace, server.record, server.log_send, start_accept_calls]
    | throws_other what => exact absurd rfl (hr what)

/-- Witness of C1 on the armed server: the accept failed with error 104 and the
connection is not started. -/
theorem handle_accept_returns_and_rearms_witness :
    ∃ s1 mid, server.handle_accept cfg_plain ⟨104⟩ .ok armed
        = .returned (server.start_accept cfg_plain s1) ∧
      s1.trace = armed.trace ++ mid ∧ start_accept_calls mid = 0 ∧
      start_accept_calls ((server.start_accept cfg_plain s1).trace.drop armed.trace.length) = 1 :=
  handle_accept_returns_and_rearms cfg_plain ⟨104⟩ .ok armed (by decide)
    (fun what h => by cases h)

/-- C3, as stated, fails: an accept that completed with error code 104 sends
nothing to the log. -/
theorem handle_accept_error_code_not_logged :
    (error_code.mk 104).not = false ∧
    log_messages (server.handle_accept cfg_plain ⟨104⟩ .ok armed).state.trace
      = log_messages armed.trace := by
  decide

/-- C3, amended: handle_accept sends a message to the log exactly when the error
code is unset and starting the pending connection throws `system_error`; the
message is that error's `what()`, with severity `uncritical_error`. In every
other case, a set error code included, nothing is sent. -/
theorem handle_accept_log (cfg : config) (e : error_code) (r : start_result)
    (s : server) (hp : s.new_connection_ ≠ none) :
    log_messages (server.handle_accept cfg e r s).state.trace =
      log_messages s.trace ++
        (if e.not then
          match r with
          | .throws_system_error what => [(log_level.uncritical_error, what)]
          | _ => []
        else []) := by
  obtain ⟨c, hc⟩ := Option.ne_none_iff_exists'.mp hp
  rw [handle_accept_eq cfg e r s c hc]
  cases he : e.not
  · simp [outcome.state, start_accept_trace, log_messages_append, log_messages]
  · cases r <;>
      simp [outcome.state, start_accept_trace, log_messages_append, log_messages,
        server.record, server.log_send]

/-- Witness of the amended C3: the start of the pending connection throws. -/
theorem handle_accept_log_witness :
    log_messages (server.handle_accept cfg_plain ⟨0⟩ (.throws_system_error "reset") armed).state.trace
      = log_messages armed.trace ++
        (if (error_code.mk 0).not then
          match start_result.throws_system_error "reset" with
          | .throws_system_error what => [(log_level.uncritical_error, what)]
          | _ => []
        else []) :=
  handle_accept_log cfg_plain ⟨0⟩ (.throws_system_error "reset") armed (by decide)

/-! ## Signals and stop -/

/-- C4: the constructor registers SIGINT, SIGTERM and, where defined, SIGQUIT,
and arms handle_stop as their handler; handle_stop sets the event loop to
stopped by one call of `io_service_.stop()` and leaves every other member as it
was: the pending connection and the acceptor are unchanged and no connection is
started, created or otherwise called. -/
theorem ctor_registers_handle_stop_and_stop_frame :
    (∀ q : Bool, (server.ctor q).signals_handler = some handler.handle_stop ∧
      (server.ctor q).signals_ =
        [signal.SIGINT, signal.SIGTERM] ++ (if q then [signal.SIGQUIT] else []) ∧
      (server.ctor q).trace =
        (([signal.SIGINT, signal.SIGTERM] ++ (if q then [signal.SIGQUIT] else [])).map
          event.signals_add) ++ [event.signals_async_wait handler.handle_stop]) ∧
    (∀ s : server,
      (server.handle_stop s).io_service_stopped = true ∧
      (server.handle_stop s).trace = s.trace ++ [event.io_service_stop] ∧
      (server.handle_stop s).new_connection_ = s.new_connection_ ∧
      (server.handle_stop s).acceptor_ = s.acceptor_ ∧
      (server.handle_stop s).context_ = s.context_ ∧
      (server.handle_stop s).signals_ = s.signals_ ∧
      (server.handle_stop s).signals_handler = s.signals_handler ∧
      (server.handle_stop s).next_id = s.next_id) := by
  refine ⟨fun q => ?_, fun s => ?_⟩
  · cases q <;> decide
  · simp [server.handle_stop]

/-! ## Startup -/

theorem setup_only_append {a b : List event} (ha : setup_only a) (hb : setup_only b) :
    setup_only (a ++ b) := by
  obtain ⟨a1, a2, a3, a4⟩ := ha
  obtain ⟨b1, b2, b3, b4⟩ := hb
  exact ⟨by rw [start_accept_calls_append, a1, b1], by rw [started_append, a2, b2]; rfl,
    by rw [created_append, a3, b3]; rfl, by rw [armed_sockets_append, a4, b4]; rfl⟩

theorem quiet_refl (s : server) : quiet s s :=
  ⟨⟨[], by simp, rfl, rfl, rfl, rfl⟩, rfl, rfl, rfl⟩

theorem quiet_trans {a b c : server} (h1 : quiet a b) (h2 : quiet b c) : quiet a c := by
  obtain ⟨⟨m1, ht1, hc1⟩, hp1, hn1, hi1⟩ := h1
  obtain ⟨⟨m2, ht2, hc2⟩, hp2, hn2, hi2⟩ := h2
  exact ⟨⟨m1 ++ m2, by rw [ht2, ht1, List.append_assoc], setup_only_append hc1 hc2⟩,
    hp2.trans hp1, hn2.trans hn1, hi2.trans hi1⟩

theorem quiet_record (s : server) (ev : event) (h : setup_only [ev]) :
    quiet s (s.record ev) :=
  ⟨⟨[ev], rfl, h⟩, rfl, rfl, rfl⟩

theorem quiet_outcome_asio_call (ev : event) (res : Option String) (effect : server → server)
    (s : server) (hev : setup_only [ev]) (heff : ∀ t, quiet t (effect t)) :
    quiet_outcome s (asio_call ev res effect s) := by
  cases res with
  | none =>
    exact ⟨quiet_trans (quiet_record s ev hev) (heff _), fun e s1 h => by cases h⟩
  | some what =>
    refine ⟨quiet_record s ev hev, fun e s1 h => ?_⟩
    simp only [asio_call, outcome.raised.injEq] at h
    exact Or.inr ⟨what, h.1.symm⟩

theorem quiet_outcome_andThen {s : server} {o : outcome} {f : server → outcome}
    (h : quiet_outcome s o) (hf : ∀ t, quiet s t → quiet_outcome t (f t)) :
    quiet_outcome s (o.andThen f) := by
  cases o with
  | returned t =>
    have ht : quiet s t := h.1
    exact ⟨quiet_trans ht (hf t ht).1, (hf t ht).2⟩
  | raised e t => exact h

theorem quiet_outcome_with_get (cfg : config) (key : String) (s : server)
    (k : String → outcome) (hk : ∀ v, quiet_outcome s (k v)) :
    quiet_outcome s (with_get cfg key s k) := by
  unfold with_get config.get
  cases cfg.vm_.lookup key with
  | none => exact ⟨quiet_refl s, fun e s1 h => by simp at h; exact Or.inl h.1.symm⟩
  | some v => exact hk v

theorem quiet_outcome_mono {a b : server} {o : outcome} (hab : quiet a b)
    (h : quiet_outcome b o) : quiet_outcome a o :=
  ⟨quiet_trans hab h.1, h.2⟩

theorem init_context_quiet (cfg : config) (env : asio_env) (s : server) :
    quiet_outcome s (server.init_context cfg env s) := by
  unfold server.init_context
  refine quiet_outcome_andThen (quiet_outcome_asio_call _ _ _ _
    (by simp [setup_only, start_accept_calls, started, created, armed_sockets])
    fun t => quiet_refl _)
    fun t _ => ?_
  refine quiet_outcome_with_get _ _ _ _ fun cert => ?_
  refine quiet_outcome_andThen (quiet_outcome_asio_call _ _ _ _
    (by simp [setup_only, start_accept_calls, started, created, armed_sockets])
    fun t => quiet_refl _)
    fun t _ => ?_
  refine quiet_outcome_with_get _ _ _ _ fun key => ?_
  refine quiet_outcome_andThen (quiet_outcome_asio_call _ _ _ _
    (by simp [setup_only, start_accept_calls, started, created, armed_sockets])
    fun t => quiet_refl _)
    fun t _ => ?_
  refine quiet_outcome_with_get _ _ _ _ fun dh => ?_
  exact quiet_outcome_asio_call _ _ _ _
    (by simp [setup_only, start_accept_calls, started, created, armed_sockets])
    fun t => quiet_refl _

theorem init_listen_quiet (env : asio_env) (ep : endpoint) (s : server) :
    quiet_outcome s (server.init_listen env ep s) := by
  unfold server.init_listen
  refine quiet_outcome_andThen (quiet_outcome_asio_call _ _ _ _
    (by simp [setup_only, start_accept_calls, started, created, armed_sockets])
    fun t => quiet_refl _)
    fun t _ => ?_
  refine quiet_outcome_andThen (quiet_outcome_asio_call _ _ _ _
    (by simp [setup_only, start_accept_calls, started, created, armed_sockets])
    fun t => quiet_refl _)
    fun t _ => ?_
  refine quiet_outcome_andThen (quiet_outcome_asio_call _ _ _ _
    (by simp [setup_only, start_accept_calls, started, created, armed_sockets])
    fun t => quiet_refl _)
    fun t _ => ?_
  exact quiet_outcome_asio_call _ _ _ _
    (by simp [setup_only, start_accept_calls, started, created, armed_sockets])
    fun t => quiet_refl _

theorem init_acceptor_quiet (cfg : config) (env : asio_env) (s : server) :
    quiet_outcome s (server.init_acceptor cfg env s) := by
  unfold server.init_acceptor
  refine quiet_outcome_with_get _ _ _ _ fun address => ?_
  refine quiet_outcome_with_get _ _ _ _ fun port => ?_
  cases env.resolve address port with
  | error what =>
    exact ⟨quiet_record _ _
      (by simp [setup_only, start_accept_calls, started, created, armed_sockets]), fun e s1 h => by simp at h; exact Or.inr ⟨what, h.1.symm⟩⟩
  | ok ep => exact quiet_outcome_mono (quiet_record _ _
      (by simp [setup_only, start_accept_calls, started, created, armed_sockets])) (init_listen_quiet env ep _)

theorem init_try_quiet (cfg : config) (env : asio_env) (s : server) :
    quiet_outcome s (server.init_try cfg env s) := by
  unfold server.init_try
  refine quiet_outcome_andThen ?_ fun t _ => init_acceptor_quiet cfg env t
  cases cfg.defined "ssl" with
  | false => exact ⟨quiet_refl s, fun e s1 h => by simp at h⟩
  | true => exact init_context_quiet cfg env s

theorem listens_mono {a b : server} {o : outcome} (hab : quiet a b) (h : listens b o) :
    listens a o := by
  intro s1 hs1
  obtain ⟨mid, ht, hc⟩ := h s1 hs1
  obtain ⟨⟨m1, ht1, hc1⟩, -⟩ := hab
  refine ⟨m1 ++ mid, by rw [ht, ht1]; simp, ?_⟩
  rw [start_accept_calls_append, hc1.1, hc]

theorem listens_andThen {s : server} {o : outcome} {f : server → outcome}
    (h : quiet_outcome s o) (hf : ∀ t, quiet s t → listens t (f t)) :
    listens s (o.andThen f) := by
  cases o with
  | returned t => exact listens_mono h.1 (hf t h.1)
  | raised e t => intro s1 hs1; simp [outcome.andThen] at hs1

theorem listens_with_get (cfg : config) (key : String) (s : server)
    (k : String → outcome) (hk : ∀ v, listens s (k v)) :
    listens s (with_get cfg key s k) := by
  unfold with_get config.get
  cases cfg.vm_.lookup key with
  | none => intro s1 hs1; simp at hs1
  | some v => exact hk v

theorem init_listen_listens (env : asio_env) (ep : endpoint) (s : server) :
    listens s (server.init_listen env ep s) := by
  unfold server.init_listen
  refine listens_andThen (quiet_outcome_asio_call _ _ _ _
    (by simp [setup_only, start_accept_calls, started, created, armed_sockets])
    fun t => quiet_refl _)
    fun t _ => ?_
  refine listens_andThen (quiet_outcome_asio_call _ _ _ _
    (by simp [setup_only, start_accept_calls, started, created, armed_sockets])
    fun t => quiet_refl _)
    fun t _ => ?_
  refine listens_andThen (quiet_outcome_asio_call _ _ _ _
    (by simp [setup_only, start_accept_calls, started, created, armed_sockets])
    fun t => quiet_refl _)
    fun t _ => ?_
  intro s1 hs1
  cases hl : env.acceptor_listen with
  | none =>
    simp only [asio_call, hl, outcome.returned.injEq] at hs1
    exact ⟨[], by rw [← hs1]; simp [server.record], rfl⟩
  | some what => simp [asio_call, hl] at hs1

theorem init_try_listens (cfg : config) (env : asio_env) (s : server) :
    listens s (server.init_try cfg env s) := by
  unfold server.init_try
  refine listens_andThen ?_ fun t _ => ?_
  · cases cfg.defined "ssl" with
    | false => exact ⟨quiet_refl s, fun e s1 h => by simp at h⟩
    | true => exact init_context_quiet cfg env s
  · unfold server.init_acceptor
    refine listens_with_get _ _ _ _ fun address => ?_
    refine listens_with_get _ _ _ _ fun port => ?_
    cases env.resolve address port with
    | error what => intro s1 hs1; simp at hs1
    | ok ep => exact listens_mono (quiet_record _ _
      (by simp [setup_only, start_accept_calls, started, created, armed_sockets])) (init_listen_listens env ep _)

/-- C2: when the try block of init ends with a `system_error`, init raises
`core_exception` with the same `what()`, and up to that point start_accept was
not called and no accept is armed that was not armed before; when the try block
returns, init returns the state left by one call of start_accept, made right
after `acceptor_.listen()`. -/
theorem init_fatal_or_arms (cfg : config) (env : asio_env) (s : server) :
    (∀ what s1, server.init_try cfg env s = .raised (.system_error what) s1 →
      server.init cfg env s = .raised (.core_exception what) s1 ∧
      (∃ mid, s1.trace = s.trace ++ mid ∧ start_accept_calls mid = 0) ∧
      s1.acceptor_.pending = s.acceptor_.pending ∧
      s1.new_connection_ = s.new_connection_) ∧
    (∀ s1, server.init_try cfg env s = .returned s1 →
      server.init cfg env s = .returned (server.start_accept cfg s1) ∧
      (∃ mid, s1.trace = s.trace ++ mid ++ [event.acceptor_listen] ∧
        start_accept_calls mid = 0) ∧
      start_accept_calls ((server.start_accept cfg s1).trace.drop s.trace.length) = 1) := by
  refine ⟨fun what s1 h => ?_, fun s1 h => ?_⟩
  · have hq := (init_try_quiet cfg env s).1
    rw [h] at hq
    obtain ⟨⟨mid, ht, hm⟩, hp, hn, -⟩ := hq
    exact ⟨by simp [server.init, h], ⟨mid, ht, hm.1⟩, hp, hn⟩
  · obtain ⟨mid, ht, hc⟩ := init_try_listens cfg env s s1 h
    refine ⟨by simp [server.init, h], ⟨mid, ht, hc⟩, ?_⟩
    rw [start_accept_trace, ht]
    simp only [List.append_assoc, List.drop_left, start_accept_calls_append, hc]
    simp [start_accept_calls]

/-- Witness of C2: bind fails on the freshly constructed server, and every call
succeeds on it. -/
theorem init_fatal_or_arms_witness :
    (server.init cfg_plain env_bind_fails (server.ctor true)
        = .raised (.core_exception "bind: Address already in use")
            (server.init_try cfg_plain env_bind_fails (server.ctor true)).state ∧
      (server.init_try cfg_plain env_bind_fails (server.ctor true)).state.acceptor_.pending
        = none) ∧
    server.init cfg_ssl env_ok (server.ctor true)
      = .returned (server.start_accept cfg_ssl
          (server.init_try cfg_ssl env_ok (server.ctor true)).state) :=
  ⟨⟨((init_fatal_or_arms cfg_plain env_bind_fails (server.ctor true)).1 _ _ (by decide)).1,
    by decide⟩,
   ((init_fatal_or_arms cfg_ssl env_ok (server.ctor true)).2 _ (by decide)).1⟩

/-! ## Arming an accept -/

theorem init_sockets (cfg : config) (env : asio_env) (q : Bool) :
    ∀ k ∈ armed_sockets (server.init cfg env (server.ctor q)).state.trace,
      k = if cfg.defined "ssl" then socket_kind.ssl_socket else socket_kind.socket := by
  have hq := (init_try_quiet cfg env (server.ctor q)).1
  have hctor : armed_sockets (server.ctor q).trace = [] := by cases q <;> decide
  obtain ⟨⟨mid, htr, -, -, -, hm⟩, -⟩ := hq
  have hnone : armed_sockets (server.init_try cfg env (server.ctor q)).state.trace = [] := by
    rw [htr, armed_sockets_append, hctor, hm]; rfl
  intro k hk
  unfold server.init at hk
  cases ht : server.init_try cfg env (server.ctor q) with
  | returned s1 =>
    rw [ht] at hk hnone
    simp only [outcome.state] at hk hnone
    rw [start_accept_sockets, hnone] at hk
    exact List.mem_singleton.mp hk
  | raised e s1 =>
    rw [ht] at hk hnone
    simp only [outcome.state] at hnone
    cases e <;> simp [outcome.state, hnone] at hk

/-- C5: start_accept makes the pending connection a newly created connection
whose ssl flag is `config.defined("ssl")`, and arms the acceptor on that
connection with its ssl socket exactly when "ssl" is defined and with its plain
socket otherwise; and over init followed by any sequence of accept completions
every accept is armed on the ssl socket when "ssl" is defined, so none is ever
armed on the plain socket, and on the plain socket when it is not. -/
theorem start_accept_socket (cfg : config) :
    (∀ s : server,
      (server.start_accept cfg s).new_connection_
        = some { id := s.next_id, ssl := cfg.defined "ssl" } ∧
      (server.start_accept cfg s).acceptor_.pending
        = some { sock := if cfg.defined "ssl" then socket_kind.ssl_socket
                         else socket_kind.socket,
                 conn := s.next_id, h := handler.handle_accept } ∧
      (server.start_accept cfg s).trace = s.trace ++
        [event.start_accept, event.new_connection s.next_id (cfg.defined "ssl"),
         event.acceptor_async_accept
           (if cfg.defined "ssl" then socket_kind.ssl_socket else socket_kind.socket)
           s.next_id handler.handle_accept]) ∧
    (∀ (env : asio_env) (q : Bool) (completions : List (error_code × start_result)),
      ∀ k ∈ armed_sockets (server.run cfg completions
          (server.init cfg env (server.ctor q)).state).state.trace,
        (cfg.defined "ssl" = true ∧ k = socket_kind.ssl_socket) ∨
        (cfg.defined "ssl" = false ∧ k = socket_kind.socket)) := by
  refine ⟨fun s => ⟨start_accept_new_connection cfg s, ?_, start_accept_trace cfg s⟩,
    fun env q completions k hk => ?_⟩
  · simp [server.start_accept, server.record]
  · have hk2 : k = if cfg.defined "ssl" then socket_kind.ssl_socket else socket_kind.socket := by
      rcases run_sockets cfg completions _ k hk with h1 | h1
      · exact init_sockets cfg env q k h1
      · exact h1
    cases hssl : cfg.defined "ssl"
    · exact Or.inr ⟨rfl, by simpa [hssl] using hk2⟩
    · exact Or.inl ⟨rfl, by simpa [hssl] using hk2⟩

/-- Witness of C5: with ssl configured, the accepts armed by init and by the
handler of one completion are on the ssl socket. -/
theorem start_accept_socket_witness :
    (cfg_ssl.defined "ssl" = true ∧ socket_kind.ssl_socket = socket_kind.ssl_socket) ∨
    (cfg_ssl.defined "ssl" = false ∧ socket_kind.ssl_socket = socket_kind.socket) :=
  (start_accept_socket cfg_ssl).2 env_ok true [(⟨0⟩, .ok)] socket_kind.ssl_socket (by decide)

/-! ## The worker pool -/

theorem create_loop (l : List Nat) (s : server) (acc : List Nat) :
    l.foldl (fun (st : server × List Nat) i =>
        (st.1.record (event.thread_create i .io_service_run), st.2 ++ [i])) (s, acc)
      = ({ s with trace := s.trace ++ l.map fun i => event.thread_create i .io_service_run },
         acc ++ l) := by
  induction l generalizing s acc with
  | nil => simp
  | cons i t ih => rw [List.foldl_cons, ih]; simp [server.record]

theorem join_loop (ts : List Nat) (k : Nat) (hk : k ≤ ts.length) (s : server) :
    (List.range k).foldl (fun st i => match ts.get? i with
        | some t => st.record (event.thread_join t)
        | none => st) s
      = { s with trace := s.trace ++ (ts.take k).map event.thread_join } := by
  induction k with
  | zero => simp
  | succ k ih =>
    have hlt : k < ts.length := hk
    rw [List.range_succ, List.foldl_append, ih (Nat.le_of_lt hlt)]
    simp only [List.foldl_cons, List.foldl_nil, List.get?_eq_getElem?,
      List.getElem?_eq_getElem hlt, server.record, List.take_succ, List.map_append,
      Option.toList, List.map_cons, List.map_nil, List.append_assoc]

theorem start_eq (n : Nat) (s : server) :
    server.start n s =
      { s with trace := (s.trace
                ++ (List.range n).map (fun i => event.thread_create i .io_service_run))
                ++ (List.range n).map event.thread_join } := by
  unfold server.start
  simp only [create_loop, List.nil_append]
  rw [join_loop (List.range n) (List.range n).length (Nat.le_refl _)]
  simp

/-- C6: `start(n)` makes, in this order, the calls that create workers 0 .. n-1,
each bound to `io_service::run` of the one `io_service_`, and then the calls
that join workers 0 .. n-1; so each worker is created once and joined once, and
nothing else in the server changes. For n = 0 the server is left as it was: no
worker is created and the event loop is not run. -/
theorem start_creates_and_joins (n : Nat) (s : server) :
    (server.start n s).trace = s.trace
      ++ (List.range n).map (fun i => event.thread_create i .io_service_run)
      ++ (List.range n).map event.thread_join ∧
    (∀ i f, ((server.start n s).trace.drop s.trace.length).count (event.thread_create i f)
      = if i < n then 1 else 0) ∧
    (∀ i, ((server.start n s).trace.drop s.trace.length).count (event.thread_join i)
      = if i < n then 1 else 0) ∧
    server.start n s = { s with trace := (server.start n s).trace } ∧
    server.start 0 s = s := by
  have hinj1 : Function.Injective (fun i => event.thread_create i thread_fn.io_service_run) :=
    fun a b h => by simpa using h
  have hinj2 : Function.Injective event.thread_join := fun a b h => by simpa using h
  have hcount : ∀ i, (List.range n).count i = if i < n then 1 else 0 := fun i => by
    by_cases h : i < n
    · simp [h, List.count_eq_one_of_mem (List.nodup_range n) (List.mem_range.mpr h)]
    · simp [h, List.count_eq_zero_of_not_mem (fun hm => h (List.mem_range.mp hm))]
  have hcj : ∀ i, ((List.range n).map fun i => event.thread_create i thread_fn.io_service_run).count
      (event.thread_join i) = 0 := fun i =>
    List.count_eq_zero_of_not_mem (by simp)
  have hjc : ∀ i f, ((List.range n).map event.thread_join).count (event.thread_create i f) = 0 :=
    fun i f => List.count_eq_zero_of_not_mem (by simp)
  refine ⟨by rw [start_eq], fun i f => ?_, fun i => ?_, by rw [start_eq], ?_⟩
  · cases f
    rw [start_eq]
    simp only [List.append_assoc, List.drop_left, List.count_append, hjc, Nat.add_zero]
    rw [List.count_map_of_injective _ _ hinj1, hcount]
  · rw [start_eq]
    simp only [List.append_assoc, List.drop_left, List.count_append, hcj, Nat.zero_add]
    rw [List.count_map_of_injective _ _ hinj2, hcount]
  · rw [start_eq]; simp

/-! ## One session object per accepted connection -/

theorem start_accept_armed (cfg : config) (s : server)
    (hs : ∀ id ∈ started s.trace, id < s.next_id) (hsn : (started s.trace).Nodup)
    (hc : ∀ id ∈ created s.trace, id < s.next_id) (hcn : (created s.trace).Nodup) :
    armed_inv (server.start_accept cfg s) { id := s.next_id, ssl := cfg.defined "ssl" } := by
  have hst : started (server.start_accept cfg s).trace = started s.trace := by
    rw [start_accept_trace, started_append]; simp [started]
  have hcr : created (server.start_accept cfg s).trace = created s.trace ++ [s.next_id] := by
    rw [start_accept_trace, created_append]; simp [created]
  refine ⟨start_accept_new_connection cfg s, start_accept_next_id cfg s, ?_, ?_, ?_, ?_,
    by rw [hcr]; simp⟩
  · rw [hst]; exact hs
  · rw [hst]; exact hsn
  · rw [hcr]
    intro id hid
    rcases List.mem_append.mp hid with h | h
    · exact Nat.le_of_lt (hc id h)
    · simp at h; exact Nat.le_of_eq h
  · rw [hcr]
    refine List.Nodup.append hcn (List.nodup_singleton _) ?_
    intro id h1 h2
    simp at h2
    exact absurd (hc id h1) (by omega)

theorem init_armed (cfg : config) (env : asio_env) (q : Bool) (s0 : server)
    (h : server.init cfg env (server.ctor q) = .returned s0) :
    armed_inv s0 { id := 0, ssl := cfg.defined "ssl" } := by
  have hq := (init_try_quiet cfg env (server.ctor q)).1
  have hctor : (server.ctor q).next_id = 0 ∧ started (server.ctor q).trace = [] ∧
      created (server.ctor q).trace = [] := by cases q <;> decide
  unfold server.init at h
  cases ht : server.init_try cfg env (server.ctor q) with
  | raised e s1 => rw [ht] at h; cases e <;> simp at h
  | returned s1 =>
    rw [ht] at h hq
    simp only [outcome.returned.injEq] at h
    obtain ⟨⟨mid, htr, -, hm2, hm3, -⟩, -, -, hid⟩ := hq
    simp only [outcome.state] at htr hid
    have hst : started s1.trace = [] := by rw [htr, started_append, hctor.2.1, hm2]; rfl
    have hcr : created s1.trace = [] := by rw [htr, created_append, hctor.2.2, hm3]; rfl
    have hn : s1.next_id = 0 := by rw [hid, hctor.1]
    have := start_accept_armed cfg s1 (by simp [hst]) (by simp [hst]) (by simp [hcr])
      (by simp [hcr])
    rw [h, hn] at this
    exact this

theorem handle_accept_step (cfg : config) (e : error_code) (r : start_result) (s : server)
    (c : connection) (h : armed_inv s c) :
    started (server.handle_accept cfg e r s).state.trace
      = started s.trace ++ (if e.not then [c.id] else []) ∧
    (started (server.handle_accept cfg e r s).state.trace).Nodup ∧
    (created (server.handle_accept cfg e r s).state.trace).Nodup ∧
    ∀ s1, server.handle_accept cfg e r s = .returned s1 →
      armed_inv s1 { id := c.id + 1, ssl := cfg.defined "ssl" } := by
  obtain ⟨hnew, hnext, hs, hsn, hc, hcn, -⟩ := h
  have key : ∀ t : server, t.next_id = s.next_id → created t.trace = created s.trace →
      (started t.trace = started s.trace ∨ started t.trace = started s.trace ++ [c.id]) →
      (started (server.start_accept cfg t).trace).Nodup ∧
      (created (server.start_accept cfg t).trace).Nodup ∧
      armed_inv (server.start_accept cfg t) { id := c.id + 1, ssl := cfg.defined "ssl" } := by
    intro t hid hcr hst
    have hs2 : ∀ id ∈ started t.trace, id < t.next_id := by
      intro id hmem
      rcases hst with h1 | h1
      · rw [h1] at hmem; have := hs id hmem; omega
      · rw [h1] at hmem
        rcases List.mem_append.mp hmem with h2 | h2
        · have := hs id h2; omega
        · simp at h2; omega
    have hsn2 : (started t.trace).Nodup := by
      rcases hst with h1 | h1
      · rw [h1]; exact hsn
      · rw [h1]
        refine List.Nodup.append hsn (List.nodup_singleton _) ?_
        intro id h2 h3
        simp at h3
        exact absurd (hs id h2) (by omega)
    have ha := start_accept_armed cfg t hs2 hsn2
      (by intro id hmem; rw [hcr] at hmem; have := hc id hmem; omega) (by rw [hcr]; exact hcn)
    rw [hid, hnext] at ha
    exact ⟨ha.2.2.2.1, ha.2.2.2.2.2.1, ha⟩
  have hst_sa : ∀ t : server, started (server.start_accept cfg t).trace = started t.trace := by
    intro t; rw [start_accept_trace, started_append]; simp [started]
  rw [handle_accept_eq cfg e r s c hnew]
  cases he : e.not
  · have k := key s rfl rfl (Or.inl rfl)
    simp only [Bool.false_eq_true, if_false, outcome.state, List.append_nil]
    refine ⟨hst_sa s, k.1, k.2.1, fun s1 h1 => ?_⟩
    simp only [outcome.returned.injEq] at h1
    rw [← h1]; exact k.2.2
  · have hrec : started (s.record (event.connection_start c.id)).trace
        = started s.trace ++ [c.id] := by
      simp [server.record, started_append, started]
    have hrecc : created (s.record (event.connection_start c.id)).trace = created s.trace := by
      simp [server.record, created_append, created]
    cases r with
    | ok =>
      have k := key (s.record (event.connection_start c.id)) rfl hrecc (Or.inr hrec)
      simp only [if_true, outcome.state]
      refine ⟨by rw [hst_sa, hrec], k.1, k.2.1, fun s1 h1 => ?_⟩
      simp only [outcome.returned.injEq] at h1
      rw [← h1]; exact k.2.2
    | throws_system_error what =>
      have hl : started ((s.record (event.connection_start c.id)).log_send
          .uncritical_error what).trace = started s.trace ++ [c.id] := by
        simp [server.record, server.log_send, started_append, started]
      have hlc : created ((s.record (event.connection_start c.id)).log_send
          .uncritical_error what).trace = created s.trace := by
        simp [server.record, server.log_send, created_append, created]
      have k := key ((s.record (event.connection_start c.id)).log_send
        .uncritical_error what) rfl hlc (Or.inr hl)
      simp only [if_true, outcome.state]
      refine ⟨by rw [hst_sa, hl], k.1, k.2.1, fun s1 h1 => ?_⟩
      simp only [outcome.returned.injEq] at h1
      rw [← h1]; exact k.2.2
    | throws_other what =>
      simp only [if_true, outcome.state]
      refine ⟨hrec, ?_, by rw [hrecc]; exact hcn, fun s1 h1 => by simp at h1⟩
      rw [hrec]
      refine List.Nodup.append hsn (List.nodup_singleton _) ?_
      intro id h2 h3
      simp at h3
      exact absurd (hs id h2) (by omega)

theorem andThen_assoc (o : outcome) (f g : server → outcome) :
    (o.andThen f).andThen g = o.andThen fun s => (f s).andThen g := by
  cases o <;> rfl

theorem run_append (cfg : config) (a b : List (error_code × start_result)) (s : server) :
    server.run cfg (a ++ b) s = (server.run cfg a s).andThen (server.run cfg b) := by
  induction a generalizing s with
  | nil => rfl
  | cons x t ih =>
    obtain ⟨e, r⟩ := x
    simp only [List.cons_append, server.run, andThen_assoc]
    congr 1
    funext s1
    exact ih s1

theorem run_inv (cfg : config) (cs : List (error_code × start_result)) (s : server)
    (c : connection) (h : armed_inv s c) :
    (started (server.run cfg cs s).state.trace).Nodup ∧
    (created (server.run cfg cs s).state.trace).Nodup ∧
    (∀ id ∈ started (server.run cfg cs s).state.trace, id ∈ started s.trace ∨ c.id ≤ id) ∧
    ∀ s1, server.run cfg cs s = .returned s1 → ∃ c1, armed_inv s1 c1 := by
  induction cs generalizing s c with
  | nil =>
    refine ⟨h.2.2.2.1, h.2.2.2.2.2.1, fun id hid => Or.inl hid, fun s1 h1 => ?_⟩
    simp only [server.run, outcome.returned.injEq] at h1
    exact ⟨c, h1 ▸ h⟩
  | cons x t ih =>
    obtain ⟨e, r⟩ := x
    obtain ⟨hst, hsn, hcn, hret⟩ := handle_accept_step cfg e r s c h
    have hsub : ∀ id ∈ started (server.handle_accept cfg e r s).state.trace,
        id ∈ started s.trace ∨ c.id ≤ id := by
      intro id hid
      rw [hst] at hid
      rcases List.mem_append.mp hid with h1 | h1
      · exact Or.inl h1
      · split at h1
        · simp at h1; exact Or.inr (Nat.le_of_eq h1.symm)
        · simp at h1
    simp only [server.run]
    cases hh : server.handle_accept cfg e r s with
    | raised e1 s1 =>
      rw [hh] at hsn hcn hsub
      exact ⟨hsn, hcn, hsub, fun s2 h2 => by simp [outcome.andThen] at h2⟩
    | returned s1 =>
      rw [hh] at hsub
      have ha := hret s1 hh
      obtain ⟨i1, i2, i3, i4⟩ := ih s1 _ ha
      refine ⟨i1, i2, fun id hid => ?_, i4⟩
      rcases i3 id hid with h1 | h1
      · exact hsub id h1
      · exact Or.inr (by simp only at h1; omega)

/-- C7: after a successful init, over every sequence of accept completions, no
connection object is started twice and none is created twice; and at every
completion the pending connection is one that was not started before, the
handler starts that connection and no other (and starts nothing when the error
code is set), a pending connection whose accept completed with an error code is
never started later, and the handler leaves a newly created connection pending. -/
theorem one_session_per_accept (cfg : config) (env : asio_env) (q : Bool)
    (completions : List (error_code × start_result)) (s0 : server)
    (hinit : server.init cfg env (server.ctor q) = .returned s0) :
    (started (server.run cfg completions s0).state.trace).Nodup ∧
    (created (server.run cfg completions s0).state.trace).Nodup ∧
    ∀ pre e r post sk, completions = pre ++ (e, r) :: post →
      server.run cfg pre s0 = .returned sk →
      ∃ c, sk.new_connection_ = some c ∧ c.id ∉ started sk.trace ∧
        started (server.handle_accept cfg e r sk).state.trace
          = started sk.trace ++ (if e.not then [c.id] else []) ∧
        (e.not = false → c.id ∉ started (server.run cfg completions s0).state.trace) ∧
        ∀ s1, server.handle_accept cfg e r sk = .returned s1 →
          ∃ c1, s1.new_connection_ = some c1 ∧ c1.id ≠ c.id ∧
            c1.id ∉ created sk.trace ∧ c1.id ∈ created s1.trace := by
  have h0 := init_armed cfg env q s0 hinit
  obtain ⟨r1, r2, -, -⟩ := run_inv cfg completions s0 _ h0
  refine ⟨r1, r2, fun pre e r post sk hsplit hpre => ?_⟩
  obtain ⟨c, hc⟩ := (run_inv cfg pre s0 _ h0).2.2.2 sk hpre
  have hlt := hc.2.2.1
  have hnot : c.id ∉ started sk.trace := fun hm => absurd (hlt c.id hm) (Nat.lt_irrefl _)
  obtain ⟨hst, -, -, hret⟩ := handle_accept_step cfg e r sk c hc
  refine ⟨c, hc.1, hnot, hst, fun he hm => ?_, fun s1 h1 => ?_⟩
  · have hfinal : server.run cfg completions s0
        = (server.handle_accept cfg e r sk).andThen (server.run cfg post) := by
      rw [hsplit, run_append, hpre]; rfl
    have heq := handle_accept_eq cfg e r sk c hc.1
    rw [he] at heq
    simp only [Bool.false_eq_true, if_false] at heq
    have ha := hret _ heq
    rw [hfinal, heq] at hm
    simp only [outcome.andThen] at hm
    have hsame : started (server.start_accept cfg sk).trace = started sk.trace := by
      rw [start_accept_trace, started_append]; simp [started]
    rcases (run_inv cfg post _ _ ha).2.2.1 c.id hm with h2 | h2
    · rw [hsame] at h2; exact hnot h2
    · simp only at h2; omega
  · have ha := hret s1 h1
    refine ⟨_, ha.1, by simp, fun hm => ?_, ha.2.2.2.2.2.2⟩
    have := hc.2.2.2.2.1 _ hm
    simp only at this
    omega

/-- Witness of C7: three completions after init, the second with error 104. -/
theorem one_session_per_accept_witness :
    (started (server.run cfg_plain
      [(⟨0⟩, .ok), (⟨104⟩, .ok), (⟨0⟩, .throws_system_error "reset")]
      (server.init cfg_plain env_ok (server.ctor true)).state).state.trace).Nodup :=
  (one_session_per_accept cfg_plain env_ok true
    [(⟨0⟩, .ok), (⟨104⟩, .ok), (⟨0⟩, .throws_system_error "reset")]
    (server.init cfg_plain env_ok (server.ctor true)).state (by decide)).1


/-! ## The audit trail -/

theorem blacklist_loop (pid : Int) (l : List blacklist_filter) (db : database) :
    l.foldl (fun db f => db.add_blacklist_parameter_connector f.id pid) db
      = { db with calls := db.calls ++
                    (l.map fun f => db_call.add_blacklist_parameter_connector f.id pid) } := by
  induction l generalizing db with
  | nil => simp
  | cons f t ih =>
    rw [List.foldl_cons, ih]; simp [database.add_blacklist_parameter_connector]

theorem whitelist_loop (pid : Int) (l : List whitelist_rule) (db : database) :
    l.foldl (fun db r => db.add_whitelist_parameter_connector r.id pid) db
      = { db with calls := db.calls ++
                    (l.map fun r => db_call.add_whitelist_parameter_connector r.id pid) } := by
  induction l generalizing db with
  | nil => simp
  | cons f t ih =>
    rw [List.foldl_cons, ih]; simp [database.add_whitelist_parameter_connector]

theorem save_parameter_rows_eq (db : database) (request : Int) (p : profile)
    (filters : List blacklist_filter) (rules : List whitelist_rule) (P : parameter) :
    save_parameter_rows db request p filters rules P =
      { next_request := db.next_request, next_parameter := db.next_parameter + 1,
        calls := db.calls ++ parameter_block request db.next_parameter p filters rules P } := by
  simp [save_parameter_rows, blacklist_loop, whitelist_loop, database.save_parameter,
    parameter_block]

theorem parameters_loop (request : Int) (p : profile) (filters : List blacklist_filter)
    (rules : List whitelist_rule) (ps : List parameter) (db : database) :
    ps.foldl (fun db P => save_parameter_rows db request p filters rules P) db =
      { next_request := db.next_request, next_parameter := db.next_parameter + ps.length,
        calls := db.calls ++ parameter_blocks request p filters rules db.next_parameter ps } := by
  induction ps generalizing db with
  | nil => simp [parameter_blocks]
  | cons P t ih =>
    rw [List.foldl_cons, ih, save_parameter_rows_eq]
    simp [parameter_blocks, Int.add_assoc, Int.add_comm 1]

theorem save_audit_trail_written (db : database) (p : profile)
    (filters : List blacklist_filter) (all_rules : List whitelist_rule)
    (caller client_ip : String) (parameters : List parameter) :
    written db.calls (save_audit_trail db p filters all_rules caller client_ip parameters) =
      db_call.save_request p.get_id caller (flag p.learning_) client_ip db.next_request ::
        parameter_blocks db.next_request p filters
          (get_whitelist_rules all_rules p.get_id caller) db.next_parameter parameters := by
  simp [written, save_audit_trail, parameters_loop, database.save_request]

theorem save_parameter_rows_written (db : database) (request : Int) (p : profile)
    (filters : List blacklist_filter) (rules : List whitelist_rule) (P : parameter) :
    written db.calls (save_parameter_rows db request p filters rules P)
      = parameter_block request db.next_parameter p filters rules P := by
  simp [written, save_parameter_rows_eq]

theorem critical_flags_append (a b : List db_call) :
    critical_flags (a ++ b) = critical_flags a ++ critical_flags b := by
  induction a with
  | nil => rfl
  | cons x t ih => cases x <;> simp [critical_flags, ih]

theorem threat_flags_append (a b : List db_call) :
    threat_flags (a ++ b) = threat_flags a ++ threat_flags b := by
  induction a with
  | nil => rfl
  | cons x t ih => cases x <;> simp [threat_flags, ih]

theorem whitelist_connectors_append (a b : List db_call) :
    whitelist_connectors (a ++ b) = whitelist_connectors a ++ whitelist_connectors b := by
  induction a with
  | nil => rfl
  | cons x t ih => cases x <;> simp [whitelist_connectors, ih]

theorem returned_requests_append (a b : List db_call) :
    returned_requests (a ++ b) = returned_requests a ++ returned_requests b := by
  induction a with
  | nil => rfl
  | cons x t ih => cases x <;> simp [returned_requests, ih]

theorem returned_parameters_append (a b : List db_call) :
    returned_parameters (a ++ b) = returned_parameters a ++ returned_parameters b := by
  induction a with
  | nil => rfl
  | cons x t ih => cases x <;> simp [returned_parameters, ih]

theorem flags_blacklist_connectors (pid : Int) (l : List blacklist_filter) :
    critical_flags (l.map fun f => db_call.add_blacklist_parameter_connector f.id pid) = [] ∧
    threat_flags (l.map fun f => db_call.add_blacklist_parameter_connector f.id pid) = [] ∧
    whitelist_connectors (l.map fun f => db_call.add_blacklist_parameter_connector f.id pid)
      = [] := by
  induction l with
  | nil => exact ⟨rfl, rfl, rfl⟩
  | cons f t ih => simpa [critical_flags, threat_flags, whitelist_connectors] using ih

theorem flags_whitelist_connectors (pid : Int) (l : List whitelist_rule) :
    critical_flags (l.map fun r => db_call.add_whitelist_parameter_connector r.id pid) = [] ∧
    threat_flags (l.map fun r => db_call.add_whitelist_parameter_connector r.id pid) = [] ∧
    whitelist_connectors (l.map fun r => db_call.add_whitelist_parameter_connector r.id pid)
      = l.map fun r => (r.id, pid) := by
  induction l with
  | nil => exact ⟨rfl, rfl, rfl⟩
  | cons f t ih => simpa [critical_flags, threat_flags, whitelist_connectors] using ih

theorem critical_flags_block (request pid : Int) (p : profile)
    (filters : List blacklist_filter) (rules : List whitelist_rule) (P : parameter) :
    critical_flags (parameter_block request pid p filters rules P)
      = [flag (critical_impact p filters P)] := by
  simp [parameter_block, critical_flags, critical_flags_append,
    (flags_blacklist_connectors pid _).1, (flags_whitelist_connectors pid _).1]

theorem critical_flags_blocks (request : Int) (p : profile)
    (filters : List blacklist_filter) (rules : List whitelist_rule) (pid : Int)
    (ps : List parameter) :
    critical_flags (parameter_blocks request p filters rules pid ps)
      = ps.map fun P => flag (critical_impact p filters P) := by
  induction ps generalizing pid with
  | nil => rfl
  | cons P t ih =>
    simp [parameter_blocks, critical_flags_append, critical_flags_block, ih]

/-- C8: in the audit trail of a request, the critical_impact flag passed to
save_parameter for each parameter P is 1 when the aggregate blacklist impact of
P is at least `profile.get_threshold()` and 0 otherwise, whatever the whitelist
rules are; two sets of whitelist rules give the same flags. -/
theorem critical_impact_flag (db : database) (p : profile) (filters : List blacklist_filter)
    (caller client_ip : String) (parameters : List parameter) :
    (∀ all_rules : List whitelist_rule,
      critical_flags (written db.calls
          (save_audit_trail db p filters all_rules caller client_ip parameters))
        = parameters.map fun P =>
            flag (decide (aggregate_impact filters P ≥ p.get_threshold))) ∧
    (∀ rules1 rules2 : List whitelist_rule,
      critical_flags (written db.calls
          (save_audit_trail db p filters rules1 caller client_ip parameters))
        = critical_flags (written db.calls
          (save_audit_trail db p filters rules2 caller client_ip parameters))) ∧
    (∀ P, critical_impact p filters P = decide (aggregate_impact filters P ≥ p.get_threshold)) := by
  have h : ∀ all_rules : List whitelist_rule,
      critical_flags (written db.calls
          (save_audit_trail db p filters all_rules caller client_ip parameters))
        = parameters.map fun P =>
            flag (decide (aggregate_impact filters P ≥ p.get_threshold)) := by
    intro all_rules
    rw [save_audit_trail_written]
    simp [critical_flags, critical_flags_blocks, critical_impact]
  exact ⟨h, fun r1 r2 => by rw [h r1, h r2], fun P => rfl⟩

/-- C9: for a parameter P covered by at least one whitelist rule, whitelisted(P)
is true and threat(P) is false, the parameter row is written with threat flag 0
and with the critical_impact flag the impact and the threshold give, and the
whitelist connectors written for P are, in order, exactly the rules that cover
P, each naming the identity of the parameter row. -/
theorem whitelisted_overrides (db : database) (request : Int) (p : profile)
    (filters : List blacklist_filter) (rules : List whitelist_rule) (P : parameter)
    (h : ∃ r ∈ rules, r.covers P.path = true) :
    whitelisted rules P = true ∧ threat p filters rules P = false ∧
    threat_flags (written db.calls (save_parameter_rows db request p filters rules P)) = [0] ∧
    critical_flags (written db.calls (save_parameter_rows db request p filters rules P))
      = [flag (decide (aggregate_impact filters P ≥ p.get_threshold))] ∧
    whitelist_connectors (written db.calls (save_parameter_rows db request p filters rules P))
      = ((rules.filter fun r => r.covers P.path).map fun r => (r.id, db.next_parameter)) := by
  obtain ⟨r, hr, hcov⟩ := h
  have hw : whitelisted rules P = true := by
    have hmem : r ∈ covering_rules rules P := List.mem_filter.mpr ⟨hr, hcov⟩
    cases hc : covering_rules rules P with
    | nil => rw [hc] at hmem; cases hmem
    | cons a t => simp [whitelisted, hc]
  have ht : threat p filters rules P = false := by simp [threat, hw]
  refine ⟨hw, ht, ?_, ?_, ?_⟩
  · rw [save_parameter_rows_written]
    simp [parameter_block, threat_flags, threat_flags_append, ht, flag,
      (flags_blacklist_connectors _ _).2.1, (flags_whitelist_connectors _ _).2.1]
  · rw [save_parameter_rows_written, critical_flags_block]; rfl
  · rw [save_parameter_rows_written]
    simp [parameter_block, whitelist_connectors, whitelist_connectors_append,
      (flags_blacklist_connectors _ _).2.2, (flags_whitelist_connectors _ _).2.2,
      covering_rules]

/-- Witness of C9: the second scenario of §8, impact 6 over threshold 5 on a
parameter covered by one rule. -/
theorem whitelisted_overrides_witness :
    critical_impact profile_1 [filter_sqli] param_id = true ∧
    whitelisted [rule_id] param_id = true ∧ threat profile_1 [filter_sqli] [rule_id] param_id = false :=
  ⟨by decide,
   (whitelisted_overrides empty_db 1 profile_1 [filter_sqli] [rule_id] param_id
      ⟨rule_id, List.mem_singleton.mpr rfl, by decide⟩).1,
   (whitelisted_overrides empty_db 1 profile_1 [filter_sqli] [rule_id] param_id
      ⟨rule_id, List.mem_singleton.mpr rfl, by decide⟩).2.1⟩

theorem names_known_mono {R R1 Ps Ps1 : List Int} (hR : ∀ x ∈ R, x ∈ R1)
    (hP : ∀ x ∈ Ps, x ∈ Ps1) (c : db_call) (h : names_known R Ps c) : names_known R1 Ps1 c := by
  cases c with
  | save_request => trivial
  | save_parameter request => exact hR _ h
  | add_blacklist_parameter_connector f q => exact hP _ h
  | add_whitelist_parameter_connector r q => exact hP _ h

theorem ordered_from_mono {R R1 Ps Ps1 : List Int} (t : List db_call)
    (hR : ∀ x ∈ R, x ∈ R1) (hP : ∀ x ∈ Ps, x ∈ Ps1) (h : ordered_from R Ps t) :
    ordered_from R1 Ps1 t := by
  induction t generalizing R R1 Ps Ps1 with
  | nil => trivial
  | cons c t ih =>
    refine ⟨names_known_mono hR hP c h.1, ih ?_ ?_ h.2⟩
    · intro x hx
      rcases List.mem_append.mp hx with h1 | h1
      · exact List.mem_append_left _ (hR x h1)
      · exact List.mem_append_right _ h1
    · intro x hx
      rcases List.mem_append.mp hx with h1 | h1
      · exact List.mem_append_left _ (hP x h1)
      · exact List.mem_append_right _ h1

theorem ordered_from_append {R Ps : List Int} (a b : List db_call)
    (ha : ordered_from R Ps a)
    (hb : ordered_from (R ++ returned_requests a) (Ps ++ returned_parameters a) b) :
    ordered_from R Ps (a ++ b) := by
  induction a generalizing R Ps with
  | nil => simpa [returned_requests, returned_parameters] using hb
  | cons c t ih =>
    refine ⟨ha.1, ih ha.2 ?_⟩
    have e1 : returned_requests (c :: t) = returned_requests [c] ++ returned_requests t :=
      returned_requests_append [c] t
    have e2 : returned_parameters (c :: t)
        = returned_parameters [c] ++ returned_parameters t :=
      returned_parameters_append [c] t
    rw [e1, e2, ← List.append_assoc, ← List.append_assoc] at hb
    exact hb

theorem ordered_from_connectors {R Ps : List Int} (pid : Int) (hp : pid ∈ Ps)
    (l : List db_call)
    (hl : ∀ c ∈ l, (∃ f, c = db_call.add_blacklist_parameter_connector f pid) ∨
      ∃ r, c = db_call.add_whitelist_parameter_connector r pid) :
    ordered_from R Ps l := by
  induction l generalizing R Ps with
  | nil => trivial
  | cons c t ih =>
    have hc := hl c (List.mem_cons_self _ _)
    refine ⟨?_, ih (List.mem_append_left _ hp) fun c1 h1 => hl c1 (List.mem_cons_of_mem _ h1)⟩
    rcases hc with ⟨f, rfl⟩ | ⟨r, rfl⟩ <;> exact hp

theorem ordered_from_block {R Ps : List Int} (request pid : Int) (hr : request ∈ R)
    (p : profile) (filters : List blacklist_filter) (rules : List whitelist_rule)
    (P : parameter) :
    ordered_from R Ps (parameter_block request pid p filters rules P) := by
  refine ⟨hr, ordered_from_connectors pid ?_ _ ?_⟩
  · simp [returned_parameters]
  · intro c hc
    rcases List.mem_append.mp hc with h1 | h1
    · obtain ⟨f, -, rfl⟩ := List.mem_map.mp h1
      exact Or.inl ⟨f.id, rfl⟩
    · obtain ⟨r, -, rfl⟩ := List.mem_map.mp h1
      exact Or.inr ⟨r.id, rfl⟩

theorem ordered_from_blocks {R Ps : List Int} (request : Int) (hr : request ∈ R)
    (p : profile) (filters : List blacklist_filter) (rules : List whitelist_rule)
    (pid : Int) (ps : List parameter) :
    ordered_from R Ps (parameter_blocks request p filters rules pid ps) := by
  induction ps generalizing R Ps pid with
  | nil => trivial
  | cons P t ih =>
    exact ordered_from_append _ _ (ordered_from_block request pid hr p filters rules P)
      (ih (List.mem_append_left _ hr) (pid + 1))

theorem ordered_from_split {R Ps : List Int} (pre : List db_call) (c : db_call)
    (post : List db_call) (h : ordered_from R Ps (pre ++ c :: post)) :
    names_known (R ++ returned_requests pre) (Ps ++ returned_parameters pre) c := by
  induction pre generalizing R Ps with
  | nil => simpa [returned_requests, returned_parameters] using h.1
  | cons d t ih =>
    have := ih h.2
    have e1 : returned_requests (d :: t) = returned_requests [d] ++ returned_requests t :=
      returned_requests_append [d] t
    have e2 : returned_parameters (d :: t)
        = returned_parameters [d] ++ returned_parameters t :=
      returned_parameters_append [d] t
    rw [e1, e2, ← List.append_assoc, ← List.append_assoc]
    exact this

/-- C10: in the audit trail written for one request, wherever the trail is cut
before a call, the identities that call names were returned by calls before
the cut: a save_parameter names a request identity that an earlier save_request
returned, and a blacklist or whitelist connector names a parameter identity
that an earlier save_parameter returned. -/
theorem audit_trail_ordered (db : database) (p : profile) (filters : List blacklist_filter)
    (all_rules : List whitelist_rule) (caller client_ip : String)
    (parameters : List parameter) (pre : List db_call) (c : db_call) (post : List db_call)
    (hcut : written db.calls
      (save_audit_trail db p filters all_rules caller client_ip parameters)
        = pre ++ c :: post) :
    names_known (returned_requests pre) (returned_parameters pre) c := by
  have hord : ordered_from [] [] (written db.calls
      (save_audit_trail db p filters all_rules caller client_ip parameters)) := by
    rw [save_audit_trail_written]
    exact ⟨trivial, ordered_from_blocks _ (by simp [returned_requests]) _ _ _ _ _⟩
  rw [hcut] at hord
  simpa using ordered_from_split pre c post hord

/-- Witness of C10: the trail of the second scenario of §8, cut before the
whitelist connector. -/
theorem audit_trail_ordered_witness :
    names_known
      (returned_requests
        [db_call.save_request 1 "login.php" 0 "10.0.0.1" 1,
         db_call.save_parameter 1 "id" "1 OR 1=1" 1 1 0 1,
         db_call.add_blacklist_parameter_connector 7 1])
      (returned_parameters
        [db_call.save_request 1 "login.php" 0 "10.0.0.1" 1,
         db_call.save_parameter 1 "id" "1 OR 1=1" 1 1 0 1,
         db_call.add_blacklist_parameter_connector 7 1])
      (db_call.add_whitelist_parameter_connector 3 1) :=
  audit_trail_ordered empty_db profile_1 [filter_sqli] [rule_id] "login.php" "10.0.0.1"
    [param_id] _ _ [] (by decide)

end swd
